import Mathlib

/-!
Verification development for the boot-time memory inventory and process model
of a minimal UEFI-booted kernel.

The memory side shallowly embeds `src/os/memory.rs`: the firmware memory
source is modelled as the pair (reported map size, optional descriptor list);
the two panic paths of the source (`assert!` on an undersized buffer, `expect`
on a failed `memory_map` call) become explicit error results, which in the
source occur strictly before any write to the global region table, so on
either failure the table is unchanged.  Machine integers are `Nat` with an
explicit `% 2 ^ 64` exactly where the source multiplies (`pages * 4096` on
`u64`); values merely copied are not reduced.

The process side embeds the `Process` record, `ProcessState` and `WaitTarget`
of `src/os/process.rs`; the lifecycle transitions themselves exist only as a
specification contract (no transition code is in the repository), so they are
modelled from the spec and marked as such.
-/

namespace RustOS

/-- One stored usable memory region, as in `struct MemoryRegion` of
`src/os/memory.rs`: a 64-bit physical start address and a byte size. -/
structure MemoryRegion where
  start : Nat
  size : Nat
deriving DecidableEq

/-- Maximum number of memory regions stored, `MAX_REGIONS` in the source. -/
def MAX_REGIONS : Nat := 32

/-- Modulus of 64-bit unsigned arithmetic. -/
def U64_MOD : Nat := 2 ^ 64

/-- UEFI memory type tag (a 32-bit discriminant in the firmware tables). -/
structure MemoryType where
  val : Nat
deriving DecidableEq

/-- The UEFI `CONVENTIONAL` memory type (value 7): general-purpose usable RAM. -/
def MemoryType.CONVENTIONAL : MemoryType := ⟨7⟩

/-- The UEFI `RESERVED` memory type (value 0). -/
def MemoryType.RESERVED : MemoryType := ⟨0⟩

/-- One firmware memory-map descriptor: a type tag, a 64-bit physical start
address and a 64-bit count of 4 KiB pages (the fields of the UEFI
`MemoryDescriptor` that the source reads). -/
structure MemoryDescriptor where
  ty : MemoryType
  phys_start : Nat
  page_count : Nat
deriving DecidableEq

/-- Byte size of one UEFI `MemoryDescriptor` (type tag u32, padding u32, two
64-bit addresses, page count u64, attributes u64 -- 40 bytes), the value of
`core::mem::size_of::<MemoryDescriptor>()` in the source's `needed`
computation. -/
def MemoryDescriptor.size_of : Nat := 40

/-- Size in bytes of the static working buffer, `MAP_SIZE = 4096 * 4` in the
source. -/
def MAP_SIZE : Nat := 4096 * 4

/-- The two failure modes of discovery: the `assert!` on an undersized buffer
and the `expect` on a failed firmware fetch. -/
inductive MemoryError where
  | BufferTooSmall
  | FetchFailed
deriving DecidableEq

/-- The firmware memory source as the discovery routine observes it: the map
size reported by `memory_map_size()` and the outcome of `memory_map(buffer)`
(`none` models a firmware fetch error). -/
structure FirmwareSource where
  map_size : Nat
  fetch_result : Option (List MemoryDescriptor)
deriving DecidableEq

deriving instance DecidableEq for Except

/-- The process-wide inventory state: the fixed-size global array
`USABLE_REGIONS` (as a list of its 32 cells) and the counter `REGION_COUNT`. -/
structure MemoryInventory where
  USABLE_REGIONS : List MemoryRegion
  REGION_COUNT : Nat
deriving DecidableEq

/-- The inventory at process start: both statics are zero-initialized. -/
def initialInventory : MemoryInventory :=
  { USABLE_REGIONS := List.replicate MAX_REGIONS { start := 0, size := 0 },
    REGION_COUNT := 0 }

/-- The source's usability test, `desc.ty == MemoryType::CONVENTIONAL`. -/
def isConventional (d : MemoryDescriptor) : Bool :=
  d.ty == MemoryType.CONVENTIONAL

/-- Conversion of one usable descriptor to a stored region: the physical start
is copied and the byte size is `pages * 4096` in wrapping 64-bit arithmetic
(lines 70-76 of `src/os/memory.rs`). -/
def descToRegion (d : MemoryDescriptor) : MemoryRegion :=
  let start := d.phys_start
  let pages := d.page_count
  let size := pages * 4096 % U64_MOD
  { start := start, size := size }

/-- The descriptor loop of `store_usable_memory_regions` (lines 65-91): walk
the descriptors in order; store each `CONVENTIONAL` one at index
`REGION_COUNT` while `REGION_COUNT < MAX_REGIONS`, incrementing the counter;
on the first usable descriptor found with the table full, break. -/
def storeLoop : List MemoryDescriptor → MemoryInventory → MemoryInventory
  | [], s => s
  | d :: rest, s =>
    if isConventional d then
      if s.REGION_COUNT < MAX_REGIONS then
        storeLoop rest
          { USABLE_REGIONS := s.USABLE_REGIONS.set s.REGION_COUNT (descToRegion d),
            REGION_COUNT := s.REGION_COUNT + 1 }
      else s
    else storeLoop rest s

/-- The discovery routine `store_usable_memory_regions`, generalized over the
working buffer's length: compute `needed = map_size + 8 * size_of
MemoryDescriptor`, fail with `BufferTooSmall` when the buffer is shorter
(the `assert!` at line 50), fail with `FetchFailed` when the firmware fetch
errors (the `expect` at line 57), and otherwise reset `REGION_COUNT` to 0 and
run the descriptor loop.  Both failure points precede every write to the
globals in the source. -/
def store_with_buffer (src : FirmwareSource) (buf_len : Nat) (s : MemoryInventory) :
    Except MemoryError MemoryInventory :=
  let needed := src.map_size + 8 * MemoryDescriptor.size_of
  if buf_len < needed then
    Except.error MemoryError.BufferTooSmall
  else
    match src.fetch_result with
    | none => Except.error MemoryError.FetchFailed
    | some descs => Except.ok (storeLoop descs { s with REGION_COUNT := 0 })

/-- The discovery routine exactly as the source fixes it: the working buffer
is the 16 KiB static `MEMORY_MAP_BUFFER`, so its length is `MAP_SIZE`. -/
def store_usable_memory_regions (src : FirmwareSource) (s : MemoryInventory) :
    Except MemoryError MemoryInventory :=
  store_with_buffer src MAP_SIZE s

/-- Effect of one discovery call on the global inventory: on success the
globals hold the new state; on failure execution stops at the panic point,
which precedes every write, so the globals keep their pre-call value. -/
def runStore (src : FirmwareSource) (buf_len : Nat) (s : MemoryInventory) :
    MemoryInventory × Option MemoryError :=
  match store_with_buffer src buf_len s with
  | Except.ok s2 => (s2, none)
  | Except.error e => (s, some e)

/-- The accessor `get_usable_memory_regions`: the slice
`&USABLE_REGIONS[..REGION_COUNT]` of valid entries. -/
def get_usable_memory_regions (s : MemoryInventory) : List MemoryRegion :=
  s.USABLE_REGIONS.take s.REGION_COUNT

/-- Inventory states reachable by any sequence of operations from process
start: reading (`get_usable_memory_regions`) does not change the state, and a
discovery call replaces the state only when it returns successfully. -/
inductive ReachableInventory : MemoryInventory → Prop where
  | init : ReachableInventory initialInventory
  | store (src : FirmwareSource) {s s2 : MemoryInventory} :
      ReachableInventory s →
      store_usable_memory_regions src s = Except.ok s2 →
      ReachableInventory s2

/-- Lifecycle states of a process, `enum ProcessState` of `src/os/process.rs`. -/
inductive ProcessState where
  | New
  | Ready
  | Running
  | Blocked
  | Suspended
  | Terminated
deriving DecidableEq

/-- Entities a blocked process may wait for, `enum WaitTarget` of
`src/os/process.rs`. -/
inductive WaitTarget where
  | PID (id : Nat)
  | IODevice (id : Nat)
  | Timer
  | Semaphore (id : Nat)
  | MessageQueue (id : Nat)
deriving DecidableEq

/-- The process control block, `struct Process` of `src/os/process.rs`, field
for field: fixed-size arrays become lists of the cell values, `usize`/`u64`
become `Nat`, the `i32` exit code becomes `Int`. -/
structure Process where
  pid : Nat
  ppid : Nat
  name : List Nat
  state : ProcessState
  priority : Nat
  timeslice : Nat
  exit_code : Option Int
  code_base : Nat
  code_size : Nat
  data_base : Nat
  data_size : Nat
  heap_base : Nat
  heap_size : Nat
  stack_base : Nat
  stack_size : Nat
  page_table_root : Nat
  regs : List Nat
  pc : Nat
  sp : Nat
  flags : Nat
  waiting_on : Option WaitTarget
  wakeup_time : Option Nat
  file_descriptors : List (Option Nat)
  signal_bitmap : Nat
  signal_handlers : List Nat
  created_at : Nat
  cpu_time : Nat
  last_scheduled : Nat
  kernel_stack : Nat
deriving DecidableEq

/-- Modelled from the spec: the repository contains no transition code for
`Process` (only the data declarations), so the lifecycle events of the spec's
transition table are modelled here.  One event per edge family: admission
(New to Ready), dispatch (Ready to Running), preemption (Running to Ready),
voluntary blocking on a `WaitTarget` with an optional wakeup time (Running to
Blocked), wake (Blocked to Ready), administrative suspension, resumption
(Suspended to Ready), and exit with an exit code. -/
inductive ProcEvent where
  | activate
  | dispatch
  | preempt
  | block (w : WaitTarget) (wake_at : Option Nat)
  | wake
  | suspend
  | resume
  | exit (code : Int)
deriving DecidableEq

/-- Modelled from the spec: the repository contains no transition code, so
this is the spec's transition table applied to one `Process`.  An event whose
source-state precondition fails is rejected: the process is returned
unchanged.  An accepted `block` records the wait target, with a wakeup time
only for timer-class blocking; leaving `Blocked` clears `waiting_on` and
`wakeup_time`; an accepted `exit` sets `exit_code`; `Terminated` satisfies no
precondition, so it has no outgoing transition. -/
def Process.step (p : Process) (e : ProcEvent) : Process :=
  match e with
  | ProcEvent.activate =>
      if p.state = ProcessState.New then
        { p with state := ProcessState.Ready }
      else p
  | ProcEvent.dispatch =>
      if p.state = ProcessState.Ready then
        { p with state := ProcessState.Running }
      else p
  | ProcEvent.preempt =>
      if p.state = ProcessState.Running then
        { p with state := ProcessState.Ready }
      else p
  | ProcEvent.block w wake_at =>
      if p.state = ProcessState.Running then
        { p with state := ProcessState.Blocked,
                 waiting_on := some w,
                 wakeup_time := match w with
                   | WaitTarget.Timer => wake_at
                   | _ => none }
      else p
  | ProcEvent.wake =>
      if p.state = ProcessState.Blocked then
        { p with state := ProcessState.Ready,
                 waiting_on := none, wakeup_time := none }
      else p
  | ProcEvent.suspend =>
      if p.state = ProcessState.Running ∨ p.state = ProcessState.Ready ∨
          p.state = ProcessState.Blocked then
        { p with state := ProcessState.Suspended,
                 waiting_on := none, wakeup_time := none }
      else p
  | ProcEvent.resume =>
      if p.state = ProcessState.Suspended then
        { p with state := ProcessState.Ready }
      else p
  | ProcEvent.exit code =>
      if p.state = ProcessState.Running ∨ p.state = ProcessState.Blocked ∨
          p.state = ProcessState.Suspended then
        { p with state := ProcessState.Terminated,
                 exit_code := some code,
                 waiting_on := none, wakeup_time := none }
      else p

/-- The spec's transition table as a relation on states: exactly the edges of
its state-machine section (New to Ready; Ready to Running; Running to Ready;
Running to Blocked; Blocked to Ready; Running, Ready or Blocked to Suspended;
Suspended to Ready; Running, Blocked or Suspended to Terminated; no edge
leaves Terminated). -/
def validTransition : ProcessState → ProcessState → Bool
  | ProcessState.New, ProcessState.Ready => true
  | ProcessState.Ready, ProcessState.Running => true
  | ProcessState.Running, ProcessState.Ready => true
  | ProcessState.Running, ProcessState.Blocked => true
  | ProcessState.Blocked, ProcessState.Ready => true
  | ProcessState.Running, ProcessState.Suspended => true
  | ProcessState.Ready, ProcessState.Suspended => true
  | ProcessState.Blocked, ProcessState.Suspended => true
  | ProcessState.Suspended, ProcessState.Ready => true
  | ProcessState.Running, ProcessState.Terminated => true
  | ProcessState.Blocked, ProcessState.Terminated => true
  | ProcessState.Suspended, ProcessState.Terminated => true
  | _, _ => false

/-- Modelled from the spec: every created `Process` starts in `New`, with no
wait target and no exit code; every other reachable value arises by lifecycle
events. -/
inductive ReachableProcess : Process → Prop where
  | created (p : Process) :
      p.state = ProcessState.New → p.waiting_on = none → p.exit_code = none →
      ReachableProcess p
  | step (p : Process) (e : ProcEvent) :
      ReachableProcess p → ReachableProcess (p.step e)

/-- Descriptor list of the spec's first scenario: a usable region of 2 pages
at 0x1000, a reserved region at 0x3000, a usable region of 16 pages at
0x10000. -/
def scenarioDescs : List MemoryDescriptor :=
  [{ ty := MemoryType.CONVENTIONAL, phys_start := 0x1000, page_count := 2 },
   { ty := MemoryType.RESERVED, phys_start := 0x3000, page_count := 5 },
   { ty := MemoryType.CONVENTIONAL, phys_start := 0x10000, page_count := 16 }]

/-- Firmware source for the first scenario: three descriptors, reported map
size 120 bytes. -/
def scenarioSrc : FirmwareSource :=
  { map_size := 120, fetch_result := some scenarioDescs }

/-- Inventory produced by discovery on the first scenario. -/
def scenarioAfter : MemoryInventory :=
  storeLoop scenarioDescs { initialInventory with REGION_COUNT := 0 }

/-- Forty distinct usable descriptors: descriptor `i` starts at
`0x100000 * (i + 1)` and spans `i + 1` pages. -/
def overflowDescs : List MemoryDescriptor :=
  (List.range 40).map fun i =>
    { ty := MemoryType.CONVENTIONAL, phys_start := 0x100000 * (i + 1),
      page_count := i + 1 }

/-- Firmware source delivering the forty usable descriptors. -/
def overflowSrc : FirmwareSource :=
  { map_size := 1600, fetch_result := some overflowDescs }

/-- Firmware source delivering only the first thirty-two of the forty usable
descriptors. -/
def truncatedSrc : FirmwareSource :=
  { map_size := 1600, fetch_result := some (overflowDescs.take 32) }

/-- Inventory produced by discovery on the forty-descriptor source. -/
def overflowAfter : MemoryInventory :=
  storeLoop overflowDescs { initialInventory with REGION_COUNT := 0 }

/-- One usable descriptor whose page count `pages` is left as a parameter,
starting at physical address 0. -/
def onePageDesc (pages : Nat) : MemoryDescriptor :=
  { ty := MemoryType.CONVENTIONAL, phys_start := 0, page_count := pages }

/-- Firmware source delivering the single descriptor `onePageDesc pages`,
reported map size 40 bytes. -/
def onePageSrc (pages : Nat) : FirmwareSource :=
  { map_size := 40, fetch_result := some [onePageDesc pages] }

/-- Inventory produced by discovery on `onePageSrc pages`. -/
def onePageAfter (pages : Nat) : MemoryInventory :=
  storeLoop [onePageDesc pages] { initialInventory with REGION_COUNT := 0 }

/-- A freshly created process: pid 1, parent 0, in state `New`, with no wait
target and no exit code. -/
def procNew : Process :=
  { pid := 1, ppid := 0, name := List.replicate 32 0,
    state := ProcessState.New, priority := 0, timeslice := 10,
    exit_code := none,
    code_base := 0, code_size := 0, data_base := 0, data_size := 0,
    heap_base := 0, heap_size := 0, stack_base := 0, stack_size := 0,
    page_table_root := 0, regs := List.replicate 32 0, pc := 0, sp := 0,
    flags := 0, waiting_on := none, wakeup_time := none,
    file_descriptors := List.replicate 64 none, signal_bitmap := 0,
    signal_handlers := List.replicate 32 0,
    created_at := 0, cpu_time := 0, last_scheduled := 0, kernel_stack := 0 }

/-- The fresh process after admission, dispatch, and blocking on a timer with
wakeup time 5. -/
def procBlocked : Process :=
  ((procNew.step ProcEvent.activate).step ProcEvent.dispatch).step
    (ProcEvent.block WaitTarget.Timer (some 5))

theorem take_set_succ {α : Type} (l : List α) (n : Nat) (a : α)
    (h : n < l.length) :
    (l.set n a).take (n + 1) = l.take n ++ [a] := by
  induction l generalizing n with
  | nil => simp at h
  | cons x xs ih =>
    cases n with
    | zero => simp
    | succ m =>
      have h2 : m < xs.length := by simpa using h
      show x :: (xs.set m a).take (m + 1) = (x :: xs.take m) ++ [a]
      rw [List.cons_append, ih m h2]

theorem storeLoop_length (descs : List MemoryDescriptor) (s : MemoryInventory) :
    (storeLoop descs s).USABLE_REGIONS.length = s.USABLE_REGIONS.length := by
  induction descs generalizing s with
  | nil => rfl
  | cons d rest ih =>
    by_cases h1 : isConventional d = true
    · by_cases h2 : s.REGION_COUNT < MAX_REGIONS
      · simp only [storeLoop, if_pos h1, if_pos h2]
        rw [ih]
        simp [List.length_set]
      · simp only [storeLoop, if_pos h1, if_neg h2]
    · simp only [storeLoop, if_neg h1]
      exact ih s

theorem storeLoop_count (descs : List MemoryDescriptor) (s : MemoryInventory)
    (hc : s.REGION_COUNT ≤ MAX_REGIONS) :
    (storeLoop descs s).REGION_COUNT ≤ MAX_REGIONS := by
  induction descs generalizing s with
  | nil => exact hc
  | cons d rest ih =>
    by_cases h1 : isConventional d = true
    · by_cases h2 : s.REGION_COUNT < MAX_REGIONS
      · simp only [storeLoop, if_pos h1, if_pos h2]
        exact ih _ (by show s.REGION_COUNT + 1 ≤ MAX_REGIONS; omega)
      · simp only [storeLoop, if_pos h1, if_neg h2]
        exact hc
    · simp only [storeLoop, if_neg h1]
      exact ih s hc

theorem storeLoop_get (descs : List MemoryDescriptor) (s : MemoryInventory)
    (hlen : s.USABLE_REGIONS.length = MAX_REGIONS)
    (hc : s.REGION_COUNT ≤ MAX_REGIONS) :
    get_usable_memory_regions (storeLoop descs s) =
      get_usable_memory_regions s ++
        (((descs.filter isConventional).take
            (MAX_REGIONS - s.REGION_COUNT)).map descToRegion) := by
  induction descs generalizing s with
  | nil => simp [storeLoop]
  | cons d rest ih =>
    by_cases h1 : isConventional d = true
    · by_cases h2 : s.REGION_COUNT < MAX_REGIONS
      · have hlt : s.REGION_COUNT < s.USABLE_REGIONS.length := by
          rw [hlen]; exact h2
        have ih2 := ih
          { USABLE_REGIONS := s.USABLE_REGIONS.set s.REGION_COUNT (descToRegion d),
            REGION_COUNT := s.REGION_COUNT + 1 }
          (by simp [List.length_set, hlen])
          (by show s.REGION_COUNT + 1 ≤ MAX_REGIONS; omega)
        have hget :
            get_usable_memory_regions
              { USABLE_REGIONS :=
                  s.USABLE_REGIONS.set s.REGION_COUNT (descToRegion d),
                REGION_COUNT := s.REGION_COUNT + 1 } =
              get_usable_memory_regions s ++ [descToRegion d] := by
          simp only [get_usable_memory_regions]
          exact take_set_succ _ _ _ hlt
        simp only [storeLoop, if_pos h1, if_pos h2]
        rw [ih2, hget, List.filter_cons_of_pos h1]
        obtain ⟨k, hk⟩ : ∃ k, MAX_REGIONS - s.REGION_COUNT = k + 1 :=
          ⟨MAX_REGIONS - s.REGION_COUNT - 1, by omega⟩
        have hk2 : k = MAX_REGIONS - (s.REGION_COUNT + 1) := by omega
        rw [hk, List.take_succ_cons, List.map_cons, hk2, List.append_assoc,
          List.singleton_append]
      · have h0 : MAX_REGIONS - s.REGION_COUNT = 0 := by omega
        simp only [storeLoop, if_pos h1, if_neg h2, h0]
        simp
    · simp only [storeLoop, if_neg h1]
      rw [ih s hlen hc, List.filter_cons_of_neg]
      simpa using h1

/-- C1: for every descriptor sequence returned by the firmware fetch, a
successful discovery pass stores as the snapshot exactly the first
`MAX_REGIONS` usable-type descriptors, converted to regions, in their
original order: the snapshot is `take capacity (filter usable D)`. -/
theorem discover_snapshot (src : FirmwareSource) (s s2 : MemoryInventory)
    (descs : List MemoryDescriptor)
    (hlen : s.USABLE_REGIONS.length = MAX_REGIONS)
    (hfetch : src.fetch_result = some descs)
    (hok : store_usable_memory_regions src s = Except.ok s2) :
    get_usable_memory_regions s2 =
      ((descs.filter isConventional).take MAX_REGIONS).map descToRegion := by
  simp only [store_usable_memory_regions, store_with_buffer, hfetch] at hok
  by_cases hbuf : MAP_SIZE < src.map_size + 8 * MemoryDescriptor.size_of
  · rw [if_pos hbuf] at hok
    exact absurd hok (by simp)
  · rw [if_neg hbuf] at hok
    have hs2 : s2 = storeLoop descs { s with REGION_COUNT := 0 } := by
      injection hok with h
      exact h.symm
    rw [hs2, storeLoop_get descs { s with REGION_COUNT := 0 }
      (by simpa using hlen) (by show (0 : Nat) ≤ MAX_REGIONS; omega)]
    simp [get_usable_memory_regions]

/-- Witness for C1 at the spec's first scenario: two usable and one reserved
descriptor give exactly the two usable regions in order. -/
theorem discover_snapshot_witness :
    get_usable_memory_regions scenarioAfter =
      [{ start := 0x1000, size := 8192 }, { start := 0x10000, size := 65536 }] := by
  have h := discover_snapshot scenarioSrc initialInventory scenarioAfter
    scenarioDescs (by decide) rfl rfl
  rw [h]
  decide

/-- C3: when the working buffer is shorter than the reported map size plus
headroom, discovery fails with the explicit result `BufferTooSmall` and the
stored snapshot keeps its pre-call value. -/
theorem buffer_too_small (src : FirmwareSource) (buf_len : Nat)
    (s : MemoryInventory)
    (h : buf_len < src.map_size + 8 * MemoryDescriptor.size_of) :
    runStore src buf_len s = (s, some MemoryError.BufferTooSmall) ∧
    get_usable_memory_regions (runStore src buf_len s).1 =
      get_usable_memory_regions s := by
  have h1 : runStore src buf_len s = (s, some MemoryError.BufferTooSmall) := by
    simp only [runStore, store_with_buffer]
    rw [if_pos h]
  exact ⟨h1, by rw [h1]⟩

/-- Witness for C3: a reported map size of 17000 bytes exceeds what the
16 KiB buffer can take once headroom is added. -/
theorem buffer_too_small_witness :
    runStore { map_size := 17000, fetch_result := none } MAP_SIZE
        initialInventory =
      (initialInventory, some MemoryError.BufferTooSmall) ∧
    get_usable_memory_regions
        (runStore { map_size := 17000, fetch_result := none } MAP_SIZE
          initialInventory).1 =
      get_usable_memory_regions initialInventory :=
  buffer_too_small _ _ _ (by decide)

/-- C4: when the firmware fetch itself errors, discovery fails with the
explicit result `FetchFailed` and leaves the prior snapshot untouched: the
region count and every stored region are unchanged. -/
theorem fetch_failed (src : FirmwareSource) (buf_len : Nat)
    (s : MemoryInventory)
    (hbuf : ¬ buf_len < src.map_size + 8 * MemoryDescriptor.size_of)
    (hfetch : src.fetch_result = none) :
    runStore src buf_len s = (s, some MemoryError.FetchFailed) ∧
    (runStore src buf_len s).1.REGION_COUNT = s.REGION_COUNT ∧
    (runStore src buf_len s).1.USABLE_REGIONS = s.USABLE_REGIONS := by
  have h1 : runStore src buf_len s = (s, some MemoryError.FetchFailed) := by
    simp only [runStore, store_with_buffer]
    rw [if_neg hbuf, hfetch]
  exact ⟨h1, by rw [h1], by rw [h1]⟩

/-- Witness for C4: a large enough buffer but an erroring fetch. -/
theorem fetch_failed_witness :
    runStore { map_size := 40, fetch_result := none } MAP_SIZE
        initialInventory =
      (initialInventory, some MemoryError.FetchFailed) ∧
    (runStore { map_size := 40, fetch_result := none } MAP_SIZE
        initialInventory).1.REGION_COUNT = initialInventory.REGION_COUNT ∧
    (runStore { map_size := 40, fetch_result := none } MAP_SIZE
        initialInventory).1.USABLE_REGIONS = initialInventory.USABLE_REGIONS :=
  fetch_failed _ _ _ (by decide) rfl

/-- C6: before any discovery call the snapshot is the empty sequence and the
inventory count is zero. -/
theorem initial_snapshot_empty :
    get_usable_memory_regions initialInventory = [] ∧
    initialInventory.REGION_COUNT = 0 :=
  ⟨rfl, rfl⟩

theorem reachable_wf (s : MemoryInventory) (h : ReachableInventory s) :
    s.USABLE_REGIONS.length = MAX_REGIONS ∧ s.REGION_COUNT ≤ MAX_REGIONS := by
  induction h with
  | init => exact ⟨by decide, by decide⟩
  | store src hr hok ih =>
    rename_i s1 s2
    simp only [store_usable_memory_regions, store_with_buffer] at hok
    by_cases hbuf : MAP_SIZE < src.map_size + 8 * MemoryDescriptor.size_of
    · rw [if_pos hbuf] at hok
      exact absurd hok (by simp)
    · rw [if_neg hbuf] at hok
      cases hfr : src.fetch_result with
      | none =>
        rw [hfr] at hok
        exact absurd hok (by simp)
      | some descs =>
        rw [hfr] at hok
        have hs2 : s2 = storeLoop descs { s1 with REGION_COUNT := 0 } := by
          injection hok with h
          exact h.symm
        constructor
        · rw [hs2, storeLoop_length]
          exact ih.1
        · rw [hs2]
          exact storeLoop_count descs { s1 with REGION_COUNT := 0 }
            (by show (0 : Nat) ≤ MAX_REGIONS; omega)

/-- C7: in every state reachable by a sequence of discovery and read
operations the count stays at most the capacity, and the snapshot view has
length exactly the count, so entries at or after the count are never
exposed. -/
theorem inventory_invariant (s : MemoryInventory) (h : ReachableInventory s) :
    s.REGION_COUNT ≤ MAX_REGIONS ∧
    (get_usable_memory_regions s).length = s.REGION_COUNT := by
  obtain ⟨hlen, hc⟩ := reachable_wf s h
  refine ⟨hc, ?_⟩
  simp only [get_usable_memory_regions, List.length_take, hlen]
  omega

/-- Witness for C7 after one successful discovery pass. -/
theorem inventory_invariant_witness :
    scenarioAfter.REGION_COUNT ≤ MAX_REGIONS ∧
    (get_usable_memory_regions scenarioAfter).length =
      scenarioAfter.REGION_COUNT :=
  inventory_invariant scenarioAfter
    (ReachableInventory.store scenarioSrc ReachableInventory.init rfl)

/-- Counterexample for C2: discovery on forty usable descriptors returns
exactly the same value as discovery on only their first thirty-two, so no
boolean reading of the result can be the claimed truncation flag -- the code
records no such flag and drops the overflow silently. -/
theorem no_truncation_flag :
    ¬ ∃ truncated : Except MemoryError MemoryInventory → Bool,
        truncated (store_usable_memory_regions overflowSrc initialInventory) =
          true ∧
        truncated (store_usable_memory_regions truncatedSrc initialInventory) =
          false := by
  rintro ⟨f, h1, h2⟩
  have h : store_usable_memory_regions overflowSrc initialInventory =
      store_usable_memory_regions truncatedSrc initialInventory := by decide
  rw [h] at h1
  exact Bool.noConfusion (h1.symm.trans h2)

/-- C2 (amended): when the usable descriptors exceed the capacity, discovery
still succeeds -- capacity overflow is never an error -- and retains exactly
the first thirty-two usable regions in their original order; but the code
records no truncation flag, so the dropped excess leaves no trace in the
result. -/
theorem overflow_not_error (src : FirmwareSource) (s : MemoryInventory)
    (descs : List MemoryDescriptor)
    (hlen : s.USABLE_REGIONS.length = MAX_REGIONS)
    (hbuf : ¬ MAP_SIZE < src.map_size + 8 * MemoryDescriptor.size_of)
    (hfetch : src.fetch_result = some descs)
    (hover : MAX_REGIONS < (descs.filter isConventional).length) :
    store_usable_memory_regions src s =
      Except.ok (storeLoop descs { s with REGION_COUNT := 0 }) ∧
    (get_usable_memory_regions
        (storeLoop descs { s with REGION_COUNT := 0 })).length = MAX_REGIONS ∧
    get_usable_memory_regions (storeLoop descs { s with REGION_COUNT := 0 }) =
      ((descs.filter isConventional).take MAX_REGIONS).map descToRegion := by
  have hok : store_usable_memory_regions src s =
      Except.ok (storeLoop descs { s with REGION_COUNT := 0 }) := by
    simp only [store_usable_memory_regions, store_with_buffer, hfetch]
    rw [if_neg hbuf]
  have hsnap : get_usable_memory_regions
      (storeLoop descs { s with REGION_COUNT := 0 }) =
      ((descs.filter isConventional).take MAX_REGIONS).map descToRegion := by
    rw [storeLoop_get descs { s with REGION_COUNT := 0 } (by simpa using hlen)
      (by show (0 : Nat) ≤ MAX_REGIONS; omega)]
    simp [get_usable_memory_regions]
  refine ⟨hok, ?_, hsnap⟩
  rw [hsnap]
  simp only [List.length_map, List.length_take]
  omega

/-- Witness for C2 (amended) at the forty-descriptor scenario. -/
theorem overflow_not_error_witness :
    store_usable_memory_regions overflowSrc initialInventory =
      Except.ok
        (storeLoop overflowDescs { initialInventory with REGION_COUNT := 0 }) ∧
    (get_usable_memory_regions
        (storeLoop overflowDescs
          { initialInventory with REGION_COUNT := 0 })).length = MAX_REGIONS ∧
    get_usable_memory_regions
        (storeLoop overflowDescs { initialInventory with REGION_COUNT := 0 }) =
      ((overflowDescs.filter isConventional).take MAX_REGIONS).map
        descToRegion :=
  overflow_not_error overflowSrc initialInventory overflowDescs (by decide)
    (by decide) rfl (by decide)

/-- Counterexample for C5: a usable descriptor of 2^52 pages describes 2^64
bytes, but the stored region records size 0, which is not the page count
multiplied by 4096. -/
theorem recorded_size_not_product :
    store_usable_memory_regions (onePageSrc (2 ^ 52)) initialInventory =
      Except.ok (onePageAfter (2 ^ 52)) ∧
    get_usable_memory_regions (onePageAfter (2 ^ 52)) =
      [{ start := 0, size := 0 }] ∧
    (0 : Nat) ≠ 2 ^ 52 * 4096 :=
  ⟨rfl, by decide, by decide⟩

/-- C5 (amended): discovery computes needed as the reported map size plus 8
times the size of one memory descriptor and reaches the fetch exactly when
the buffer length is at least needed, failing with `BufferTooSmall`
otherwise; every stored region stems from a usable descriptor of the fetched
map, copies its physical start, and records as size the descriptor's page
count times 4096 reduced modulo 2^64 -- which equals the plain product
whenever the page count is below 2^52. -/
theorem needed_and_sizes (src : FirmwareSource) (buf_len : Nat)
    (s s2 : MemoryInventory) (descs : List MemoryDescriptor)
    (hlen : s.USABLE_REGIONS.length = MAX_REGIONS)
    (hfetch : src.fetch_result = some descs) :
    (store_with_buffer src buf_len s =
        Except.error MemoryError.BufferTooSmall ↔
      buf_len < src.map_size + 8 * MemoryDescriptor.size_of) ∧
    (store_with_buffer src buf_len s = Except.ok s2 →
      ∀ r ∈ get_usable_memory_regions s2,
        ∃ d ∈ descs, isConventional d = true ∧ r.start = d.phys_start ∧
          r.size = d.page_count * 4096 % U64_MOD ∧
          (d.page_count < 2 ^ 52 → r.size = d.page_count * 4096)) := by
  constructor
  · constructor
    · intro heq
      by_cases hbuf : buf_len < src.map_size + 8 * MemoryDescriptor.size_of
      · exact hbuf
      · exfalso
        simp only [store_with_buffer, hfetch] at heq
        rw [if_neg hbuf] at heq
        exact absurd heq (by simp)
    · intro h
      simp only [store_with_buffer]
      rw [if_pos h]
  · intro hok r hr
    simp only [store_with_buffer, hfetch] at hok
    by_cases hbuf : buf_len < src.map_size + 8 * MemoryDescriptor.size_of
    · rw [if_pos hbuf] at hok
      exact absurd hok (by simp)
    · rw [if_neg hbuf] at hok
      have hs2 : s2 = storeLoop descs { s with REGION_COUNT := 0 } := by
        injection hok with h
        exact h.symm
      rw [hs2, storeLoop_get descs { s with REGION_COUNT := 0 }
        (by simpa using hlen) (by show (0 : Nat) ≤ MAX_REGIONS; omega)] at hr
      simp only [get_usable_memory_regions] at hr
      rw [List.take_zero, List.nil_append] at hr
      obtain ⟨d, hd, hrd⟩ := List.mem_map.mp hr
      have hd2 := List.mem_of_mem_take hd
      obtain ⟨hdm, hcv⟩ := List.mem_filter.mp hd2
      refine ⟨d, hdm, hcv, ?_, ?_, ?_⟩
      · rw [← hrd]
        rfl
      · rw [← hrd]
        rfl
      · intro hsmall
        rw [← hrd]
        show d.page_count * 4096 % U64_MOD = d.page_count * 4096
        have e1 : (2 : Nat) ^ 52 = 4503599627370496 := by norm_num
        have e2 : U64_MOD = 18446744073709551616 := by norm_num [U64_MOD]
        rw [e1] at hsmall
        have h64 : d.page_count * 4096 < U64_MOD := by
          rw [e2]
          omega
        exact Nat.mod_eq_of_lt h64

/-- Witness for C5 (amended): with a reported size of 17000 bytes the 16 KiB
buffer fails the needed-size check, so discovery reports `BufferTooSmall`. -/
theorem needed_and_sizes_witness :
    store_with_buffer { map_size := 17000, fetch_result := some [] } MAP_SIZE
        initialInventory =
      Except.error MemoryError.BufferTooSmall :=
  (needed_and_sizes { map_size := 17000, fetch_result := some [] } MAP_SIZE
      initialInventory initialInventory [] (by decide) rfl).1.mpr (by decide)

/-- C10: the byte-size conversion is a wrapping 64-bit multiplication with no
overflow guard: for a usable descriptor of at least 2^52 pages, discovery
succeeds -- it does not fail -- and records the product reduced modulo 2^64,
strictly smaller than the byte count the descriptor describes. -/
theorem page_size_wraps (pages : Nat) (h : 2 ^ 52 ≤ pages) :
    store_usable_memory_regions (onePageSrc pages) initialInventory =
      Except.ok (onePageAfter pages) ∧
    get_usable_memory_regions (onePageAfter pages) =
      [{ start := 0, size := pages * 4096 % U64_MOD }] ∧
    pages * 4096 % U64_MOD < pages * 4096 := by
  refine ⟨rfl, rfl, ?_⟩
  have h1 : pages * 4096 % U64_MOD < U64_MOD :=
    Nat.mod_lt _ (by norm_num [U64_MOD])
  have h2 : U64_MOD ≤ pages * 4096 := by
    have e1 : (2 : Nat) ^ 52 * 4096 = U64_MOD := by norm_num [U64_MOD]
    calc U64_MOD = 2 ^ 52 * 4096 := e1.symm
      _ ≤ pages * 4096 := mul_le_mul_right' h 4096
  omega

/-- Witness for C10 at exactly 2^52 pages. -/
theorem page_size_wraps_witness :
    store_usable_memory_regions (onePageSrc (2 ^ 52)) initialInventory =
      Except.ok (onePageAfter (2 ^ 52)) ∧
    get_usable_memory_regions (onePageAfter (2 ^ 52)) =
      [{ start := 0, size := 2 ^ 52 * 4096 % U64_MOD }] ∧
    2 ^ 52 * 4096 % U64_MOD < 2 ^ 52 * 4096 :=
  page_size_wraps (2 ^ 52) (le_refl _)

theorem step_of_terminated (p : Process)
    (h : p.state = ProcessState.Terminated) (e : ProcEvent) : p.step e = p := by
  cases e <;> simp [Process.step, h]

theorem step_preserves_inv (p : Process) (e : ProcEvent)
    (h1 : p.waiting_on.isSome ↔ p.state = ProcessState.Blocked)
    (h2 : p.exit_code.isSome ↔ p.state = ProcessState.Terminated) :
    ((p.step e).waiting_on.isSome ↔ (p.step e).state = ProcessState.Blocked) ∧
    ((p.step e).exit_code.isSome ↔ (p.step e).state = ProcessState.Terminated) := by
  cases e <;> cases hs : p.state <;> simp_all [Process.step]

/-- C8: for every reachable process, waiting_on is Some exactly when the
state is Blocked and exit_code is Some exactly when the state is Terminated;
moreover a Terminated process accepts no further event, so the exit code is
set exactly once on reaching Terminated and never resets. -/
theorem process_invariants (p : Process) (h : ReachableProcess p) :
    (p.waiting_on.isSome ↔ p.state = ProcessState.Blocked) ∧
    (p.exit_code.isSome ↔ p.state = ProcessState.Terminated) ∧
    (p.state = ProcessState.Terminated → ∀ e, p.step e = p) := by
  induction h with
  | created q hs hw he =>
    refine ⟨?_, ?_, ?_⟩
    · rw [hw, hs]
      simp
    · rw [he, hs]
      simp
    · intro ht
      rw [hs] at ht
      exact absurd ht (by decide)
  | step q e hq ih =>
    obtain ⟨ih1, ih2, ih3⟩ := ih
    refine ⟨(step_preserves_inv q e ih1 ih2).1,
      (step_preserves_inv q e ih1 ih2).2, ?_⟩
    intro ht e2
    exact step_of_terminated _ ht e2

/-- Witness for C8: the concrete process driven to Blocked has a wait
target recorded. -/
theorem process_invariants_witness : procBlocked.waiting_on.isSome = true :=
  (process_invariants procBlocked
    (ReachableProcess.step _ _ (ReachableProcess.step _ _
      (ReachableProcess.step _ _
        (ReachableProcess.created procNew rfl rfl rfl))))).1.mpr rfl

/-- C9: every event either is rejected, returning the process unchanged, or
moves the state along an edge of the transition table; in particular
dispatching a New process -- the illegal New to Running attempt -- is
rejected and leaves the process unchanged. -/
theorem step_in_edge_set (p : Process) (e : ProcEvent) :
    (p.step e = p ∨ validTransition p.state (p.step e).state = true) ∧
    (p.state = ProcessState.New → p.step ProcEvent.dispatch = p) := by
  constructor
  · cases e <;> cases hs : p.state <;> simp_all [Process.step, validTransition]
  · intro hs
    simp [Process.step, hs]

/-- Witness for C9: dispatching the fresh New process is rejected. -/
theorem step_in_edge_set_witness :
    procNew.step ProcEvent.dispatch = procNew :=
  (step_in_edge_set procNew ProcEvent.dispatch).2 rfl

end RustOS

